import Mathlib

/-!
Verification of the VEML7700 light-sensor driver (`mkigor_veml.cpp` /
`mkigor_veml.h`) against its natural-language specification.

The driver talks to the sensor over a synchronous 16-bit register bus.  We
shallow-embed the code as pure Lean functions over an explicit bus oracle
`env : Nat → Nat → Nat`: the value returned by the `n`-th register read of a
run, for a given command code, is `env n cmd % 65536` (registers are 16-bit).
Every bus interaction (read, write, delay) is recorded in an event log, so
frame conditions ("no register write happened", "a settle delay of `d` ms was
incurred") are statements about the log.

Machine integers are modelled as `Nat` with explicit `% 2^16` truncation at
the bus boundary.  The `float` arithmetic of Finalize is modelled exactly:
each table coefficient is the exact rational value of the IEEE-754
single-precision constant denoted by the source literal, the product
`coefficient * count` is rounded once to the nearest single-precision value
(`fl32`, round to nearest even — all reachable products are 0 or lie well
inside the normal range, where `fl32` coincides with IEEE-754 binary32), and
C `round` (half away from zero, here on a non-negative domain) is
`⌊x + 1/2⌋`.
-/

/-- Register command codes, from `mkigor_veml.h`. -/
def cd_ALS_CONF : Nat := 0
def cd_PSM : Nat := 3
def cd_ALS : Nat := 4
def cd_WHITE : Nat := 5
def cd_ID : Nat := 7

/-- One observable bus interaction of the driver. -/
inductive Ev where
  | read (cmd val : Nat)
  | write (cmd val : Nat)
  | delayMs (ms : Nat)
deriving DecidableEq, Repr

def Ev.isRead : Ev → Bool
  | .read _ _ => true
  | _ => false

def Ev.isWrite : Ev → Bool
  | .write _ _ => true
  | _ => false

def Ev.isDelay : Ev → Bool
  | .delayMs _ => true
  | _ => false

/-- Running bus state: number of reads performed so far (indexing the oracle)
and the log of all interactions. -/
structure RunSt where
  rc : Nat
  log : List Ev
deriving DecidableEq, Repr

/-- The bus oracle: read number `n` of command `cmd` returns `env n cmd`,
truncated to 16 bits. -/
def BusEnv : Type := Nat → Nat → Nat

/-- `cl_VEML7700::readReg`: one 16-bit register read. -/
def doRead (env : BusEnv) (cmd : Nat) (s : RunSt) : Nat × RunSt :=
  let v := env s.rc cmd % 65536
  (v, ⟨s.rc + 1, s.log ++ [Ev.read cmd v]⟩)

/-- `cl_VEML7700::writeReg`: one 16-bit register write (value truncated). -/
def doWrite (cmd v : Nat) (s : RunSt) : RunSt :=
  ⟨s.rc, s.log ++ [Ev.write cmd (v % 65536)]⟩

/-- Arduino `delay(ms)`. -/
def doDelay (ms : Nat) (s : RunSt) : RunSt :=
  ⟨s.rc, s.log ++ [Ev.delayMs ms]⟩

/-- `cl_VEML7700::sleep`: read ALS_CONF, write it back with bit 0 set. -/
def sleepM (env : BusEnv) (s : RunSt) : RunSt :=
  let (v, s1) := doRead env cd_ALS_CONF s
  doWrite cd_ALS_CONF (v ||| 0x0001) s1

/-- `cl_VEML7700::wakeUp`: read ALS_CONF, write it back with bit 0 cleared. -/
def wakeUpM (env : BusEnv) (s : RunSt) : RunSt :=
  let (v, s1) := doRead env cd_ALS_CONF s
  doWrite cd_ALS_CONF (v &&& 0xFFFE) s1

/-- `lvc_nGain` from `readAW`. -/
def lvc_nGain : Nat := 4
/-- `lvc_nTime` from `readAW`. -/
def lvc_nTime : Nat := 6
/-- `lvc_ALSgain`: hardware gain codes by gain index (gains 1/8, 1/4, 1, 2). -/
def lvc_ALSgain : List Nat := [2, 3, 0, 1]
/-- `lvc_ALStime`: hardware integration-time codes by time index. -/
def lvc_ALStime : List Nat := [0x0C, 0x08, 0, 0x01, 0x02, 0x03]
/-- `lvc_ALSdelay`: integration time in ms by time index. -/
def lvc_ALSdelay : List Nat := [25, 50, 100, 200, 400, 800]

/-- `lvc_tableResol`: resolution coefficients (counts → lux), indexed
`[gainIndex][timeIndex]`.  The source stores them as `float` literals
(2.1504, 1.0752, 0.5376, 0.2688, 0.1344, 0.0672, 0.0336, 0.0168, 0.0084,
0.0042 in the layout below); each entry here is the exact rational value of
the IEEE-754 single-precision constant that literal denotes.  Every literal
is 0.0042 · 2^k and 0.0042f = 9019431/2^31, so all entries share the
significand 9019431. -/
def lvc_tableResol : List (List ℚ) :=
  [[9019431/2^22, 9019431/2^23, 9019431/2^24, 9019431/2^25, 9019431/2^26, 9019431/2^27],
   [9019431/2^23, 9019431/2^24, 9019431/2^25, 9019431/2^26, 9019431/2^27, 9019431/2^28],
   [9019431/2^25, 9019431/2^26, 9019431/2^27, 9019431/2^28, 9019431/2^29, 9019431/2^30],
   [9019431/2^26, 9019431/2^27, 9019431/2^28, 9019431/2^29, 9019431/2^30, 9019431/2^31]]

/-- Table lookup `lvc_tableResol[g][t]`. -/
def resol (g t : Nat) : ℚ := (lvc_tableResol.getD g []).getD t 0

/-- C library `round` on a non-negative argument: round half away from zero,
i.e. `⌊x + 1/2⌋`. -/
def roundHalfUp (x : ℚ) : ℤ := ⌊x + 1/2⌋

/-- Round a rational to the nearest integer, ties to even (the IEEE-754
default rounding). -/
def rne (y : ℚ) : ℤ :=
  if y - ⌊y⌋ < 1/2 then ⌊y⌋
  else if 1/2 < y - ⌊y⌋ then ⌊y⌋ + 1
  else if ⌊y⌋ % 2 = 0 then ⌊y⌋ else ⌊y⌋ + 1

/-- Rounding of a non-negative rational to the nearest IEEE-754
single-precision value: scale into the 24-bit significand range
[2^23, 2^24) and round to nearest even.  Zero maps to zero.  Every value
`readAW` feeds to it is 0 or lies well inside the normal range (no
subnormals, no overflow), where this is exactly the `float` multiply of the
source. -/
def fl32 (x : ℚ) : ℚ :=
  if x ≤ 0 then 0
  else (rne (x / 2 ^ (Int.log 2 x - 23)) : ℚ) * 2 ^ (Int.log 2 x - 23)

/-- The index-search loops of `readAW` (lines 174-175): scan the table and
remember the index of the last matching entry, keeping the previous index if
no entry matches. -/
def findIdxAux (table : List Nat) (code i acc : Nat) : Nat :=
  match table with
  | [] => acc
  | c :: rest => findIdxAux rest code (i + 1) (if code = c then i else acc)

def findIdx (table : List Nat) (code prev : Nat) : Nat :=
  findIdxAux table code 0 prev

/-- The `lv_ALSdata < 1000` branch of the Adjust step (lines 183-185). -/
def adjustLow (gi ti : Nat) : Nat × Nat :=
  if ti < 2 then (gi, 2)
  else if gi < lvc_nGain - 1 then (gi + 1, ti)
  else if ti < lvc_nTime - 1 then (gi, ti + 1)
  else (gi, ti)

/-- The `lv_ALSdata > 10000` branch of the Adjust step (lines 188-190). -/
def adjustHigh (gi ti : Nat) : Nat × Nat :=
  if 2 < ti then (gi, ti - 1)
  else if gi ≠ 0 then (gi - 1, ti)
  else if ti ≠ 0 then (gi, ti - 1)
  else (gi, ti)

/-- The full Adjust step (lines 182-191) as reached after the in-bounds break
has not fired. -/
def adjust (als gi ti : Nat) : Nat × Nat :=
  if als < 1000 then adjustLow gi ti
  else if 10000 < als then adjustHigh gi ti
  else (gi, ti)

/-- The value written to ALS_CONF in the Apply step (lines 194-195): clear the
gain bits (12:11) and time bits (9:6) of the previously read configuration
and install the codes for the chosen indices. -/
def applyConf (conf gi ti : Nat) : Nat :=
  (conf &&& 0xE43F) ||| (lvc_ALSgain.getD gi 0 <<< 11) ||| (lvc_ALStime.getD ti 0 <<< 6)

/-- Result of one pass of the `for` loop: break out with the final indices, or
continue with updated indices. -/
inductive StepRes where
  | brk (gi ti : Nat) (s : RunSt)
  | cont (gi ti : Nat) (s : RunSt)
deriving DecidableEq, Repr

def StepRes.st : StepRes → RunSt
  | .brk _ _ s => s
  | .cont _ _ s => s

/-- One iteration of the search loop of `readAW` (lines 167-204): sample ALS,
WHITE and the configuration register, reverse-map gain/time codes to indices,
break if the ALS count is in bounds, otherwise adjust, shut down, rewrite the
configuration, wake up, settle, and break if the new setting is at an extreme
corner of the table. -/
def loopIter (env : BusEnv) (gi ti : Nat) (s : RunSt) : StepRes :=
  let (als, s1) := doRead env cd_ALS s
  let (_whi, s2) := doRead env cd_WHITE s1
  let (conf, s3) := doRead env cd_ALS_CONF s2
  let gain := (conf >>> 11) &&& 0x03
  let time := (conf >>> 6) &&& 0x0F
  let gi1 := findIdx lvc_ALSgain gain gi
  let ti1 := findIdx lvc_ALStime time ti
  if 1000 ≤ als ∧ als ≤ 10000 then StepRes.brk gi1 ti1 s3
  else
    let p := adjust als gi1 ti1
    let gi2 := p.1
    let ti2 := p.2
    let s4 := sleepM env s3
    let s5 := doWrite cd_ALS_CONF (applyConf conf gi2 ti2) s4
    let s6 := wakeUpM env s5
    let s7 := doDelay (lvc_ALSdelay.getD ti2 0 + 100) s6
    if (gi2 = lvc_nGain - 1 ∧ ti2 = lvc_nTime - 1) ∨ (gi2 = 0 ∧ ti2 = 0) then
      StepRes.brk gi2 ti2 s7
    else StepRes.cont gi2 ti2 s7

/-- The bounded search loop: run `loopIter` with the given fuel (24 in
`readAW`), returning the final indices, bus state, and the number of loop
passes executed. -/
def loopRun (env : BusEnv) : Nat → Nat → Nat → RunSt → Nat → Nat × Nat × RunSt × Nat
  | 0, gi, ti, s, iters => (gi, ti, s, iters)
  | fuel + 1, gi, ti, s, iters =>
    match loopIter env gi ti s with
    | .brk gi' ti' s' => (gi', ti', s', iters + 1)
    | .cont gi' ti' s' => loopRun env fuel gi' ti' s' (iters + 1)

/-- `AW_stru_t`: the calibrated reading returned by `readAW`. -/
structure AW_stru_t where
  lux1 : Nat
  whi1 : Nat
deriving DecidableEq, Repr

/-- Everything observable about one `readAW` run: the returned reading, the
final indices, the two fresh raw samples taken by Finalize, the number of
search-loop passes, and the final bus state. -/
structure AWResult where
  aw : AW_stru_t
  gainIndex : Nat
  timeIndex : Nat
  alsF : Nat
  whiF : Nat
  iters : Nat
  st : RunSt
deriving DecidableEq, Repr

/-- `cl_VEML7700::readAW` (lines 148-216): two discarded warm-up reads, the
bounded search loop starting from indices (0,0), then Finalize: two fresh
samples, coefficient lookup, single-precision multiply (`fl32` of the exact
product, one rounding, as the source's `float` multiplication performs), and
C `round`. -/
def readAW (env : BusEnv) : AWResult :=
  let s0 : RunSt := ⟨0, []⟩
  let (_, sA) := doRead env cd_ALS s0
  let (_, sB) := doRead env cd_WHITE sA
  let r := loopRun env 24 0 0 sB 0
  let gi := r.1
  let ti := r.2.1
  let (als, sC) := doRead env cd_ALS r.2.2.1
  let (whi, sD) := doRead env cd_WHITE sC
  let coef := resol gi ti
  { aw := ⟨(roundHalfUp (fl32 (coef * als))).toNat, (roundHalfUp (fl32 (coef * whi))).toNat⟩,
    gainIndex := gi, timeIndex := ti, alsF := als, whiF := whi,
    iters := r.2.2.2, st := sD }

/-- The driver object's only mutable member: `clv_i2cAddr`. -/
structure VemlObj where
  clv_i2cAddr : Nat
deriving DecidableEq, Repr

/-- `cl_VEML7700::check` (lines 101-121).  The three fallible bus steps are
oracle values: `wr` is the return of `Wire.write` (success = 1), `et` of
`Wire.endTransmission` (success = 0), `rf` of `Wire.requestFrom`
(success = 2); `lsb`/`msb` are the two bytes read on success.  The address
member is assigned before any bus traffic; each failure returns the sentinel
0 before the two initialization register writes. -/
def check (obj : VemlObj) (lp_addr wr et rf lsb msb : Nat) :
    VemlObj × List Ev × Nat :=
  let obj1 : VemlObj := ⟨lp_addr⟩
  if wr ≠ 1 then (obj1, [], 0)
  else if et ≠ 0 then (obj1, [], 0)
  else if rf ≠ 2 then (obj1, [], 0)
  else
    let chipCode := ((msb % 256) <<< 8) ||| (lsb % 256)
    (obj1, [Ev.write cd_PSM 0, Ev.write cd_ALS_CONF 0x1000], chipCode)

/-! ### View definitions used by the theorem statements

These name the values `loopIter` samples and the event sequence its Apply and
Settle steps emit, so that frame conditions can be stated readably. -/

/-- The ALS count sampled at the top of a loop pass entered in bus state `s`. -/
def alsSample (env : BusEnv) (s : RunSt) : Nat := env s.rc cd_ALS % 65536

/-- The WHITE count sampled in the same pass. -/
def whiSample (env : BusEnv) (s : RunSt) : Nat := env (s.rc + 1) cd_WHITE % 65536

/-- The configuration value sampled in the same pass. -/
def confSample (env : BusEnv) (s : RunSt) : Nat := env (s.rc + 2) cd_ALS_CONF % 65536

/-- The gain index after the reverse-mapping of this pass. -/
def mappedGain (env : BusEnv) (s : RunSt) (gi : Nat) : Nat :=
  findIdx lvc_ALSgain ((confSample env s >>> 11) &&& 0x03) gi

/-- The time index after the reverse-mapping of this pass. -/
def mappedTime (env : BusEnv) (s : RunSt) (ti : Nat) : Nat :=
  findIdx lvc_ALStime ((confSample env s >>> 6) &&& 0x0F) ti

/-- The three register reads every loop pass performs. -/
def sampleReads (env : BusEnv) (s : RunSt) : List Ev :=
  [Ev.read cd_ALS (alsSample env s),
   Ev.read cd_WHITE (whiSample env s),
   Ev.read cd_ALS_CONF (confSample env s)]

/-- The event sequence of the Apply and Settle steps, entered with `rc` reads
already performed: the shutdown read-modify-write, the gain/time
configuration write, the wake-up read-modify-write, and the settle delay. -/
def applyLog (env : BusEnv) (rc conf gi ti : Nat) : List Ev :=
  [Ev.read cd_ALS_CONF (env rc cd_ALS_CONF % 65536),
   Ev.write cd_ALS_CONF ((env rc cd_ALS_CONF % 65536 ||| 0x0001) % 65536),
   Ev.write cd_ALS_CONF (applyConf conf gi ti % 65536),
   Ev.read cd_ALS_CONF (env (rc + 1) cd_ALS_CONF % 65536),
   Ev.write cd_ALS_CONF ((env (rc + 1) cd_ALS_CONF % 65536 &&& 0xFFFE) % 65536),
   Ev.delayMs (lvc_ALSdelay.getD ti 0 + 100)]

/-! ### Structural lemmas about one loop pass -/

/-- An in-bounds sample makes the pass break immediately after its three
reads: no adjust, no write, no delay. -/
theorem loopIter_inbounds (env : BusEnv) (gi ti : Nat) (s : RunSt)
    (h : 1000 ≤ alsSample env s ∧ alsSample env s ≤ 10000) :
    loopIter env gi ti s =
      StepRes.brk (mappedGain env s gi) (mappedTime env s ti)
        ⟨s.rc + 3, s.log ++ sampleReads env s⟩ := by
  unfold loopIter doRead
  unfold alsSample at h
  simp only []
  rw [if_pos h]
  simp [mappedGain, mappedTime, sampleReads, alsSample, whiSample, confSample]

/-- An out-of-bounds sample makes the pass adjust the indices, emit the full
Apply/Settle event sequence, and then break exactly when the new setting is
at an extreme corner. -/
theorem loopIter_outbounds (env : BusEnv) (gi ti : Nat) (s : RunSt)
    (h : ¬(1000 ≤ alsSample env s ∧ alsSample env s ≤ 10000)) :
    loopIter env gi ti s =
      (let gi2 := (adjust (alsSample env s) (mappedGain env s gi) (mappedTime env s ti)).1
       let ti2 := (adjust (alsSample env s) (mappedGain env s gi) (mappedTime env s ti)).2
       let s' : RunSt :=
         ⟨s.rc + 5, s.log ++ sampleReads env s ++ applyLog env (s.rc + 3) (confSample env s) gi2 ti2⟩
       if (gi2 = lvc_nGain - 1 ∧ ti2 = lvc_nTime - 1) ∨ (gi2 = 0 ∧ ti2 = 0) then
         StepRes.brk gi2 ti2 s'
       else StepRes.cont gi2 ti2 s') := by
  unfold loopIter doRead
  unfold alsSample at h
  simp only []
  rw [if_neg h]
  unfold sleepM wakeUpM doRead doWrite doDelay
  simp only []
  simp [mappedGain, mappedTime, sampleReads, applyLog, alsSample, whiSample, confSample]

/-! ### Claim-side definitions (transcribed from the specification text, for
comparison with the code-side `adjust`) -/

/-- Claim wording for the weak-signal adjustment: if `timeIndex < 2` set it to
2 (gain unchanged); otherwise if `gainIndex` is below its most-sensitive
extreme 3, increment it; otherwise if `timeIndex < 5`, increment it; otherwise
leave both unchanged. -/
def adjustLowClaim (gi ti : Nat) : Nat × Nat :=
  if ti < 2 then (gi, 2)
  else if gi < 3 then (gi + 1, ti)
  else if ti < 5 then (gi, ti + 1)
  else (gi, ti)

/-- Claim wording for the strong-signal adjustment: if `timeIndex > 2`
decrement it; otherwise if `gainIndex` is not 0, decrement it; otherwise if
`timeIndex` is not 0, decrement it; otherwise leave both unchanged. -/
def adjustHighClaim (gi ti : Nat) : Nat × Nat :=
  if ti > 2 then (gi, ti - 1)
  else if gi ≠ 0 then (gi - 1, ti)
  else if ti ≠ 0 then (gi, ti - 1)
  else (gi, ti)

/-- C1: in a loop pass whose sampled count is below 1000, the next setting is
computed by the claim's weak-signal rule, and in a pass whose count exceeds
10000, by the claim's symmetric strong-signal rule. -/
theorem C1_adjust_matches_claim (als gi ti : Nat) :
    (als < 1000 → adjust als gi ti = adjustLowClaim gi ti) ∧
    (10000 < als → adjust als gi ti = adjustHighClaim gi ti) := by
  constructor
  · intro h
    unfold adjust
    rw [if_pos h]
    rfl
  · intro h
    unfold adjust
    rw [if_neg (by omega), if_pos h]
    rfl

/-- Witness for C1 at concrete inputs on both sides of the target window. -/
theorem C1_witness :
    adjust 500 0 0 = adjustLowClaim 0 0 ∧ adjust 20000 0 3 = adjustHighClaim 0 3 :=
  ⟨(C1_adjust_matches_claim 500 0 0).1 (by decide),
   (C1_adjust_matches_claim 20000 0 3).2 (by decide)⟩

/-- The index-search loop keeps its accumulator when no table entry matches. -/
theorem findIdxAux_not_mem (table : List Nat) (code : Nat) :
    code ∉ table → ∀ i acc, findIdxAux table code i acc = acc := by
  induction table with
  | nil => intro _ i acc; rfl
  | cons c rest ih =>
    intro h i acc
    have hc : code ≠ c := fun hh => h (hh ▸ List.mem_cons_self c rest)
    have hr : code ∉ rest := fun hh => h (List.mem_cons_of_mem c hh)
    unfold findIdxAux
    rw [if_neg hc]
    exact ih hr (i + 1) acc

/-- C6: when the live gain or time hardware code is absent from its lookup
table, the reverse-mapping of the first loop pass (whose indices start at 0)
leaves that index at its default 0; the operation is total and does not fail. -/
theorem C6_reverse_mapping_fallback (g t : Nat)
    (hg : g ∉ lvc_ALSgain) (ht : t ∉ lvc_ALStime) :
    findIdx lvc_ALSgain g 0 = 0 ∧ findIdx lvc_ALStime t 0 = 0 :=
  ⟨findIdxAux_not_mem lvc_ALSgain g hg 0 0, findIdxAux_not_mem lvc_ALStime t ht 0 0⟩

/-- Witness for C6: gain code 4 and time code 5 appear in neither table. -/
theorem C6_witness : findIdx lvc_ALSgain 4 0 = 0 ∧ findIdx lvc_ALStime 5 0 = 0 :=
  C6_reverse_mapping_fallback 4 5 (by decide) (by decide)

/-- C8: the resolution table is strictly monotonic: for every fixed time
index the coefficient strictly decreases as the gain index increases from 0
to 3, and for every fixed gain index it strictly decreases as the time index
increases from 0 to 5. -/
theorem C8_resol_strict_decreasing :
    (∀ t, t < 6 → ∀ g, g + 1 < 4 → resol (g + 1) t < resol g t) ∧
    (∀ g, g < 4 → ∀ t, t + 1 < 6 → resol g (t + 1) < resol g t) := by
  constructor
  · intro t ht g hg
    have hg3 : g < 3 := by omega
    interval_cases t <;> interval_cases g <;> norm_num [resol, lvc_tableResol]
  · intro g hg t ht
    have ht5 : t < 5 := by omega
    interval_cases g <;> interval_cases t <;> norm_num [resol, lvc_tableResol]

/-- Witness for C8 at the table's origin. -/
theorem C8_witness : resol (0 + 1) 0 < resol 0 0 ∧ resol 0 (0 + 1) < resol 0 0 :=
  ⟨C8_resol_strict_decreasing.1 0 (by decide) 0 (by decide),
   C8_resol_strict_decreasing.2 0 (by decide) 0 (by decide)⟩

/-- Concrete oracle: ALS and WHITE always read 5000, configuration reads 0
(gain code 0 = gain index 2, time code 0 = time index 2). -/
def env5000 : BusEnv := fun _ cmd => if cmd = 4 ∨ cmd = 5 then 5000 else 0

/-- Concrete oracle: every read returns 0 (ALS at the noise floor). -/
def env0 : BusEnv := fun _ _ => 0

/-- C2: a loop pass exits to Finalize — no adjust, no configuration write, no
settle delay, only its three sample reads — exactly when the sampled count is
in the inclusive window [1000, 10000]; an out-of-bounds pass appends the full
Apply/Settle event sequence (which contains configuration writes and a
delay). -/
theorem C2_window_exit (env : BusEnv) (gi ti : Nat) (s : RunSt) :
    (1000 ≤ alsSample env s ∧ alsSample env s ≤ 10000 →
      loopIter env gi ti s =
        StepRes.brk (mappedGain env s gi) (mappedTime env s ti)
          ⟨s.rc + 3, s.log ++ sampleReads env s⟩) ∧
    (¬(1000 ≤ alsSample env s ∧ alsSample env s ≤ 10000) →
      (loopIter env gi ti s).st.log =
        s.log ++ sampleReads env s ++
          applyLog env (s.rc + 3) (confSample env s)
            (adjust (alsSample env s) (mappedGain env s gi) (mappedTime env s ti)).1
            (adjust (alsSample env s) (mappedGain env s gi) (mappedTime env s ti)).2) := by
  constructor
  · exact loopIter_inbounds env gi ti s
  · intro h
    rw [loopIter_outbounds env gi ti s h]
    simp only []
    split <;> rfl

/-- Witness for C2: an in-window count (5000, accepted without any Apply
step) and an out-of-window count (0, which triggers the Apply/Settle
sequence). -/
theorem C2_witness :
    (loopIter env5000 0 0 ⟨0, []⟩ =
      StepRes.brk (mappedGain env5000 ⟨0, []⟩ 0) (mappedTime env5000 ⟨0, []⟩ 0)
        ⟨3, [] ++ sampleReads env5000 ⟨0, []⟩⟩) ∧
    ((loopIter env0 0 0 ⟨0, []⟩).st.log =
      [] ++ sampleReads env0 ⟨0, []⟩ ++
        applyLog env0 3 (confSample env0 ⟨0, []⟩)
          (adjust (alsSample env0 ⟨0, []⟩) (mappedGain env0 ⟨0, []⟩ 0) (mappedTime env0 ⟨0, []⟩ 0)).1
          (adjust (alsSample env0 ⟨0, []⟩) (mappedGain env0 ⟨0, []⟩ 0) (mappedTime env0 ⟨0, []⟩ 0)).2) :=
  ⟨(C2_window_exit env5000 0 0 ⟨0, []⟩).1 (by decide),
   (C2_window_exit env0 0 0 ⟨0, []⟩).2 (by decide)⟩

/-- C9: whenever a bus transaction step of `check` fails (the write, the
transmission end, or the two-byte request does not complete), the call
returns the sentinel 0 having performed no register writes, yet the stored
i2c address has already been replaced by the argument. -/
theorem C9_check_failure_state (obj : VemlObj) (addr wr et rf lsb msb : Nat)
    (h : ¬(wr = 1 ∧ et = 0 ∧ rf = 2)) :
    (check obj addr wr et rf lsb msb).2.2 = 0 ∧
    (check obj addr wr et rf lsb msb).2.1 = [] ∧
    (check obj addr wr et rf lsb msb).1.clv_i2cAddr = addr := by
  unfold check
  by_cases h1 : wr = 1
  · by_cases h2 : et = 0
    · by_cases h3 : rf = 2
      · exact absurd ⟨h1, h2, h3⟩ h
      · rw [if_neg (by simpa using h1), if_neg (by simpa using h2), if_pos h3]
        exact ⟨rfl, rfl, rfl⟩
    · rw [if_neg (by simpa using h1), if_pos h2]
      exact ⟨rfl, rfl, rfl⟩
  · rw [if_pos h1]
    exact ⟨rfl, rfl, rfl⟩

/-- Witness for C9: a failed `Wire.requestFrom` (returned 1 instead of 2). -/
theorem C9_witness :
    (check ⟨0x10⟩ 0x20 1 0 1 0 0).2.2 = 0 ∧
    (check ⟨0x10⟩ 0x20 1 0 1 0 0).2.1 = [] ∧
    (check ⟨0x10⟩ 0x20 1 0 1 0 0).1.clv_i2cAddr = 0x20 :=
  C9_check_failure_state ⟨0x10⟩ 0x20 1 0 1 0 0 (by decide)

/-- Unfolding lemma for one pass of the bounded loop. -/
theorem loopRun_succ (env : BusEnv) (fuel gi ti : Nat) (s : RunSt) (n : Nat) :
    loopRun env (fuel + 1) gi ti s n =
      match loopIter env gi ti s with
      | .brk gi' ti' s' => (gi', ti', s', n + 1)
      | .cont gi' ti' s' => loopRun env fuel gi' ti' s' (n + 1) := rfl

/-- The loop never executes more passes than its fuel. -/
theorem loopRun_iters_le (env : BusEnv) :
    ∀ fuel gi ti (s : RunSt) n, (loopRun env fuel gi ti s n).2.2.2 ≤ n + fuel := by
  intro fuel
  induction fuel with
  | zero => intro gi ti s n; simp [loopRun]
  | succ f ih =>
    intro gi ti s n
    rw [loopRun_succ]
    cases h : loopIter env gi ti s with
    | brk gi' ti' s' => simp only []; omega
    | cont gi' ti' s' =>
      simp only []
      exact le_trans (ih gi' ti' s' (n + 1)) (by omega)

/-- C3: for every bus oracle, the search loop of `readAW` executes at most 24
passes (the embedding of `readAW` is a total function, so it always reaches
Finalize and returns a reading), and a pass whose post-adjust setting sits at
an extreme corner of the table — (3,5) or (0,0) — never continues the loop:
it breaks out of the search. -/
theorem C3_bounded_termination (env : BusEnv) :
    (readAW env).iters ≤ 24 ∧
    (∀ gi ti (s : RunSt) gi' ti' (s' : RunSt),
      loopIter env gi ti s = StepRes.cont gi' ti' s' →
      ¬((gi' = lvc_nGain - 1 ∧ ti' = lvc_nTime - 1) ∨ (gi' = 0 ∧ ti' = 0))) := by
  constructor
  · exact loopRun_iters_le env 24 0 0 _ 0
  · intro gi ti s gi' ti' s' h hc
    by_cases hin : 1000 ≤ alsSample env s ∧ alsSample env s ≤ 10000
    · rw [loopIter_inbounds env gi ti s hin] at h
      exact StepRes.noConfusion h
    · rw [loopIter_outbounds env gi ti s hin] at h
      simp only [] at h
      split at h
      · exact StepRes.noConfusion h
      · next hg =>
        injection h with e1 e2 e3
        subst e1
        subst e2
        exact hg hc

/-- Witness for C3: the all-zero oracle, whose first pass continues with the
non-corner setting (3,2). -/
theorem C3_witness :
    (readAW env0).iters ≤ 24 ∧
    ¬((3 = lvc_nGain - 1 ∧ 2 = lvc_nTime - 1) ∨ (3 = 0 ∧ 2 = 0)) :=
  ⟨(C3_bounded_termination env0).1,
   (C3_bounded_termination env0).2 0 0 ⟨0, []⟩ 3 2
     ⟨5, [Ev.read 4 0, Ev.read 5 0, Ev.read 0 0, Ev.read 0 0, Ev.write 0 1,
          Ev.write 0 2048, Ev.read 0 0, Ev.write 0 0, Ev.delayMs 200]⟩
     (by decide)⟩

/-- C7: when the first loop sample of a `readAW` call (the third register
read of the run, after the two discarded warm-up reads) is already inside
[1000, 10000], the call performs exactly one Sample/Evaluate pass and its
complete event log consists of reads only: no configuration write and no
settle delay occur before Finalize. -/
theorem C7_first_sample_in_window (env : BusEnv)
    (h1 : 1000 ≤ env 2 cd_ALS % 65536) (h2 : env 2 cd_ALS % 65536 ≤ 10000) :
    (readAW env).iters = 1 ∧ ∀ e ∈ (readAW env).st.log, e.isRead = true := by
  have hin : 1000 ≤ alsSample env ⟨2, [Ev.read cd_ALS (env 0 cd_ALS % 65536),
        Ev.read cd_WHITE (env 1 cd_WHITE % 65536)]⟩ ∧
      alsSample env ⟨2, [Ev.read cd_ALS (env 0 cd_ALS % 65536),
        Ev.read cd_WHITE (env 1 cd_WHITE % 65536)]⟩ ≤ 10000 := ⟨h1, h2⟩
  have hiter := loopIter_inbounds env 0 0 _ hin
  unfold readAW
  simp only [doRead]
  rw [show (24 : Nat) = 23 + 1 from rfl, loopRun_succ]
  simp only [List.nil_append, List.singleton_append, Nat.zero_add, Nat.reduceAdd]
  rw [hiter]
  constructor
  · rfl
  · intro e he
    fin_cases he <;> rfl

/-- Witness for C7: the constant-5000 oracle. -/
theorem C7_witness :
    (readAW env5000).iters = 1 ∧ ∀ e ∈ (readAW env5000).st.log, e.isRead = true :=
  C7_first_sample_in_window env5000 (by decide) (by decide)

/-- Bits of the Apply mask outside the gain and time fields are set. -/
theorem maskBit_outside : ∀ j, j < 16 → ¬(6 ≤ j ∧ j ≤ 9) → ¬(11 ≤ j ∧ j ≤ 12) →
    (0xE43F : Nat).testBit j = true := by
  decide

/-- The shifted gain code contributes nothing outside bits 11-12. -/
theorem gainShift_outside : ∀ j, j < 16 → ∀ g, g < 4 → ¬(11 ≤ j ∧ j ≤ 12) →
    (decide (11 ≤ j) && Nat.testBit g (j - 11)) = false := by
  decide

/-- The shifted time code contributes nothing outside bits 6-9. -/
theorem timeShift_outside : ∀ j, j < 16 → ∀ t, t < 16 → ¬(6 ≤ j ∧ j ≤ 9) →
    (decide (6 ≤ j) && Nat.testBit t (j - 6)) = false := by
  decide

/-- C4: the Apply-step configuration write changes only the gain bit field
(bits 11-12, which receive the gain code) and the time bit field (bits 6-9,
which receive the time code) of the value previously read back from the
configuration register; every other bit — persistence (4-5), interrupt
enable (1), shutdown (0) and the reserved bits — is carried over unchanged. -/
theorem C4_apply_preserves (conf gi ti : Nat)
    (hconf : conf < 65536) (hg : gi < 4) (ht : ti < 6) :
    (∀ i, ¬(6 ≤ i ∧ i ≤ 9) → ¬(11 ≤ i ∧ i ≤ 12) →
        (applyConf conf gi ti).testBit i = conf.testBit i) ∧
    (applyConf conf gi ti >>> 11) &&& 0x03 = lvc_ALSgain.getD gi 0 ∧
    (applyConf conf gi ti >>> 6) &&& 0x0F = lvc_ALStime.getD ti 0 := by
  have hGv : lvc_ALSgain.getD gi 0 < 4 := by interval_cases gi <;> decide
  have hTv : lvc_ALStime.getD ti 0 < 16 := by interval_cases ti <;> decide
  refine ⟨?_, ?_, ?_⟩
  · intro i h1 h2
    simp only [applyConf, Nat.testBit_or, Nat.testBit_and, Nat.testBit_shiftLeft]
    by_cases hi : i < 16
    · rw [maskBit_outside i hi h1 h2, gainShift_outside i hi _ hGv h2,
          timeShift_outside i hi _ hTv h1]
      simp
    · have h16 : 16 ≤ i := by omega
      have hc : conf.testBit i = false := by
        apply Nat.testBit_lt_two_pow
        have : (65536 : Nat) = 2 ^ 16 := by norm_num
        calc conf < 65536 := hconf
          _ = 2 ^ 16 := this
          _ ≤ 2 ^ i := Nat.pow_le_pow_right (by norm_num) h16
      have hm : (0xE43F : Nat).testBit i = false := by
        apply Nat.testBit_lt_two_pow
        calc (0xE43F : Nat) < 2 ^ 16 := by norm_num
          _ ≤ 2 ^ i := Nat.pow_le_pow_right (by norm_num) h16
      have hgb : (lvc_ALSgain.getD gi 0).testBit (i - 11) = false := by
        apply Nat.testBit_lt_two_pow
        calc lvc_ALSgain.getD gi 0 < 4 := hGv
          _ = 2 ^ 2 := by norm_num
          _ ≤ 2 ^ (i - 11) := Nat.pow_le_pow_right (by norm_num) (by omega)
      have htb : (lvc_ALStime.getD ti 0).testBit (i - 6) = false := by
        apply Nat.testBit_lt_two_pow
        calc lvc_ALStime.getD ti 0 < 16 := hTv
          _ = 2 ^ 4 := by norm_num
          _ ≤ 2 ^ (i - 6) := Nat.pow_le_pow_right (by norm_num) (by omega)
      rw [hc, hm, hgb, htb]
      simp
  · apply Nat.eq_of_testBit_eq
    intro j
    simp only [Nat.testBit_and, Nat.testBit_shiftRight, applyConf, Nat.testBit_or,
      Nat.testBit_shiftLeft]
    by_cases hj : j < 2
    · have hm : (0xE43F : Nat).testBit (11 + j) = false := by
        interval_cases j <;> decide
      have hT : (lvc_ALStime.getD ti 0).testBit (11 + j - 6) = false := by
        apply Nat.testBit_lt_two_pow
        calc lvc_ALStime.getD ti 0 < 16 := hTv
          _ = 2 ^ 4 := by norm_num
          _ ≤ 2 ^ (11 + j - 6) := Nat.pow_le_pow_right (by norm_num) (by omega)
      have h3 : (0x03 : Nat).testBit j = true := by interval_cases j <;> decide
      have hje : 11 + j - 11 = j := by omega
      rw [hm, hT, h3, hje]
      simp
    · have h3 : (0x03 : Nat).testBit j = false := by
        apply Nat.testBit_lt_two_pow
        calc (0x03 : Nat) < 4 := by norm_num
          _ = 2 ^ 2 := by norm_num
          _ ≤ 2 ^ j := Nat.pow_le_pow_right (by norm_num) (by omega)
      have hG : (lvc_ALSgain.getD gi 0).testBit j = false := by
        apply Nat.testBit_lt_two_pow
        calc lvc_ALSgain.getD gi 0 < 4 := hGv
          _ = 2 ^ 2 := by norm_num
          _ ≤ 2 ^ j := Nat.pow_le_pow_right (by norm_num) (by omega)
      rw [h3, hG]
      simp
  · apply Nat.eq_of_testBit_eq
    intro j
    simp only [Nat.testBit_and, Nat.testBit_shiftRight, applyConf, Nat.testBit_or,
      Nat.testBit_shiftLeft]
    by_cases hj : j < 4
    · have hm : (0xE43F : Nat).testBit (6 + j) = false := by
        interval_cases j <;> decide
      have hGsh : decide (11 ≤ 6 + j) = false := by
        have : ¬(11 ≤ 6 + j) := by omega
        simpa using this
      have hF : (0x0F : Nat).testBit j = true := by interval_cases j <;> decide
      have hje : 6 + j - 6 = j := by omega
      rw [hm, hGsh, hF, hje]
      simp
    · have hF : (0x0F : Nat).testBit j = false := by
        apply Nat.testBit_lt_two_pow
        calc (0x0F : Nat) < 16 := by norm_num
          _ = 2 ^ 4 := by norm_num
          _ ≤ 2 ^ j := Nat.pow_le_pow_right (by norm_num) (by omega)
      have hT : (lvc_ALStime.getD ti 0).testBit j = false := by
        apply Nat.testBit_lt_two_pow
        calc lvc_ALStime.getD ti 0 < 16 := hTv
          _ = 2 ^ 4 := by norm_num
          _ ≤ 2 ^ j := Nat.pow_le_pow_right (by norm_num) (by omega)
      rw [hF, hT]
      simp

/-- Witness for C4: a configuration with persistence, interrupt-enable and
reserved bits set (0xA413 has bits 0, 1, 4, 10, 13, 15 among others), gain
index 1, time index 4. -/
theorem C4_witness :
    (applyConf 0xA413 1 4).testBit 4 = (0xA413 : Nat).testBit 4 ∧
    (applyConf 0xA413 1 4 >>> 11) &&& 0x03 = lvc_ALSgain.getD 1 0 ∧
    (applyConf 0xA413 1 4 >>> 6) &&& 0x0F = lvc_ALStime.getD 4 0 :=
  ⟨(C4_apply_preserves 0xA413 1 4 (by decide) (by decide) (by decide)).1 4
      (by decide) (by decide),
   (C4_apply_preserves 0xA413 1 4 (by decide) (by decide) (by decide)).2.1,
   (C4_apply_preserves 0xA413 1 4 (by decide) (by decide) (by decide)).2.2⟩

/-- C10: in a pass where the Adjust step leaves the setting unchanged — count
below 1000 with the reverse-mapped setting already at the most-sensitive
corner (3,5), or count above 10000 at (0,0) — `readAW` still performs the
full Apply and Settle sequence (shutdown read-modify-write, configuration
write carrying the same gain/time codes, wake-up read-modify-write, settle
delay), and only then the extreme-corner guard exits the loop. -/
theorem C10_full_apply_at_extremes (env : BusEnv) (gi ti : Nat) (s : RunSt) :
    (alsSample env s < 1000 → mappedGain env s gi = 3 → mappedTime env s ti = 5 →
      loopIter env gi ti s =
        StepRes.brk 3 5 ⟨s.rc + 5, s.log ++ sampleReads env s ++
          applyLog env (s.rc + 3) (confSample env s) 3 5⟩) ∧
    (10000 < alsSample env s → mappedGain env s gi = 0 → mappedTime env s ti = 0 →
      loopIter env gi ti s =
        StepRes.brk 0 0 ⟨s.rc + 5, s.log ++ sampleReads env s ++
          applyLog env (s.rc + 3) (confSample env s) 0 0⟩) := by
  constructor
  · intro h hg ht
    rw [loopIter_outbounds env gi ti s (by omega)]
    rw [hg, ht]
    have ha : adjust (alsSample env s) 3 5 = (3, 5) := by
      unfold adjust
      rw [if_pos h]
      rfl
    rw [ha]
    simp [lvc_nGain, lvc_nTime]
  · intro h hg ht
    rw [loopIter_outbounds env gi ti s (by omega)]
    rw [hg, ht]
    have ha : adjust (alsSample env s) 0 0 = (0, 0) := by
      unfold adjust
      rw [if_neg (by omega), if_pos h]
      rfl
    rw [ha]
    simp [lvc_nGain, lvc_nTime]

/-- Dim-scene oracle: count 500, configuration reporting gain code 1 and time
code 3, i.e. the most-sensitive setting (3,5). -/
def envDim : BusEnv := fun _ cmd => if cmd = 0 then 2240 else 500

/-- Bright-scene oracle: count 50000, configuration reporting gain code 2 and
time code 0x0C, i.e. the least-sensitive setting (0,0). -/
def envBright : BusEnv := fun _ cmd => if cmd = 0 then 0x1300 else 50000

/-- Witness for C10: both extreme corners, with the rewritten configuration
value equal to the one read (same codes) and the settle delay present. -/
theorem C10_witness :
    loopIter envDim 0 0 ⟨0, []⟩ = StepRes.brk 3 5 ⟨5,
      [Ev.read 4 500, Ev.read 5 500, Ev.read 0 2240, Ev.read 0 2240,
       Ev.write 0 2241, Ev.write 0 2240, Ev.read 0 2240, Ev.write 0 2240,
       Ev.delayMs 900]⟩ ∧
    loopIter envBright 0 0 ⟨0, []⟩ = StepRes.brk 0 0 ⟨5,
      [Ev.read 4 50000, Ev.read 5 50000, Ev.read 0 4864, Ev.read 0 4864,
       Ev.write 0 4865, Ev.write 0 4864, Ev.read 0 4864, Ev.write 0 4864,
       Ev.delayMs 125]⟩ :=
  ⟨(C10_full_apply_at_extremes envDim 0 0 ⟨0, []⟩).1 (by decide) (by decide) (by decide),
   (C10_full_apply_at_extremes envBright 0 0 ⟨0, []⟩).2 (by decide) (by decide) (by decide)⟩


/-- Pin the binary exponent of a positive rational between consecutive powers
of two. -/
theorem Int_log2_eq (x : ℚ) (f : ℤ) (h0 : 0 < x)
    (h1 : (2 : ℚ) ^ f ≤ x) (h2 : x < (2 : ℚ) ^ (f + 1)) : Int.log 2 x = f := by
  have ha : f ≤ Int.log 2 x := by
    rw [← Int.zpow_le_iff_le_log (by norm_num) h0]
    exact_mod_cast h1
  have hb : Int.log 2 x < f + 1 := by
    rw [← Int.lt_zpow_iff_log_lt (by norm_num) h0]
    exact_mod_cast h2
  omega

/-- Evaluate `fl32` once the binary exponent and the rounded significand are
known. -/
theorem fl32_eq (x : ℚ) (f m : ℤ) (h0 : 0 < x)
    (h1 : (2 : ℚ) ^ f ≤ x) (h2 : x < (2 : ℚ) ^ (f + 1))
    (hm : rne (x * 2 ^ (23 - f)) = m) :
    fl32 x = (m : ℚ) * 2 ^ (f - 23) := by
  unfold fl32
  rw [if_neg (not_le.mpr h0), Int_log2_eq x f h0 h1 h2]
  have hx : x / 2 ^ (f - 23) = x * 2 ^ ((23 : ℤ) - f) := by
    rw [div_eq_mul_inv, ← zpow_neg, show -(f - 23) = 23 - f from by ring]
  rw [hx, hm]

/-- Saturating oracle with fresh Finalize samples: the loop sees count 50000
at the live setting (0,0) and exits through the (0,0) corner guard on its
first pass; the two Finalize reads (read numbers 7 and 8) return 65123. -/
def envSat : BusEnv := fun n cmd =>
  if 7 ≤ n then 65123 else if cmd = 0 then 0x1300 else 50000

/-- C5 counterexample: a run that (reachably) ends at setting (0,0) — the
coefficient whose source literal is 2.1504 — with a Finalize count of 65123.
The program's single-precision product is exactly 140040.5, so its `round`
half away from zero returns 140041; the claim's exact formula
round(2.1504 · 65123) = round(140040.4992) yields 140040. -/
theorem C5_counterexample :
    (readAW envSat).gainIndex = 0 ∧
    (readAW envSat).timeIndex = 0 ∧
    (readAW envSat).alsF = 65123 ∧
    (readAW envSat).aw.lux1 = 140041 ∧
    (roundHalfUp ((2.1504 : ℚ) * 65123)).toNat = 140040 := by
  refine ⟨rfl, rfl, rfl, ?_, ?_⟩
  · have h : (readAW envSat).aw.lux1 =
        (roundHalfUp (fl32 (resol 0 0 * ((65123 : Nat) : ℚ)))).toNat := rfl
    rw [h]
    have hx : resol 0 0 * ((65123 : Nat) : ℚ) = 587372405013 / 2 ^ 22 := by
      norm_num [resol, lvc_tableResol]
    rw [hx]
    have hfl : fl32 (587372405013 / 2 ^ 22 : ℚ) = (8962592 : ℚ) * 2 ^ ((17 : ℤ) - 23) := by
      apply fl32_eq (587372405013 / 2 ^ 22 : ℚ) 17 8962592 (by norm_num) (by norm_num)
        (by norm_num)
      have hy : ((587372405013 / 2 ^ 22 : ℚ)) * 2 ^ ((23 : ℤ) - 17) = 587372405013 / 2 ^ 16 := by
        norm_num
      rw [hy]
      unfold rne
      rw [show ⌊(587372405013 / 2 ^ 16 : ℚ)⌋ = 8962591 from by norm_num]
      norm_num
    rw [hfl]
    have hv : roundHalfUp ((8962592 : ℚ) * 2 ^ ((17 : ℤ) - 23)) = 140041 := by
      unfold roundHalfUp
      rw [show ((8962592 : ℚ) * 2 ^ ((17 : ℤ) - 23) + 1 / 2) = 280082 / 2 from by norm_num]
      norm_num
    rw [hv]
    rfl
  · unfold roundHalfUp
    rw [show ⌊(2.1504 : ℚ) * 65123 + 1 / 2⌋ = 140040 from by norm_num]
    rfl

/-- C5 (amended): Finalize takes one more fresh sample under the final
setting, multiplies each raw count by the stored single-precision resolution
coefficient at `[gainIndex][timeIndex]` in single-precision arithmetic (the
exact product is rounded once to the nearest representable value, as the
source's `float` multiply does), and rounds the result half away from zero;
with `primaryCount = 5000` and setting (2,2), whose stored coefficient is the
float value of the literal 0.0672 (= 9019431/2^27), the single-precision
product is exactly 336 and the calibrated primary value is 336. -/
theorem C5_finalize_conversion :
    (∀ env : BusEnv, (readAW env).aw =
      ⟨(roundHalfUp (fl32 (resol (readAW env).gainIndex (readAW env).timeIndex *
          ((readAW env).alsF : ℚ)))).toNat,
       (roundHalfUp (fl32 (resol (readAW env).gainIndex (readAW env).timeIndex *
          ((readAW env).whiF : ℚ)))).toNat⟩) ∧
    resol 2 2 = 9019431 / 2 ^ 27 ∧
    (readAW env5000).gainIndex = 2 ∧
    (readAW env5000).timeIndex = 2 ∧
    (readAW env5000).alsF = 5000 ∧
    (readAW env5000).aw = ⟨336, 336⟩ := by
  refine ⟨fun env => rfl, by norm_num [resol, lvc_tableResol], rfl, rfl, rfl, ?_⟩
  have h : (readAW env5000).aw =
      ⟨(roundHalfUp (fl32 (resol 2 2 * ((5000 : Nat) : ℚ)))).toNat,
       (roundHalfUp (fl32 (resol 2 2 * ((5000 : Nat) : ℚ)))).toNat⟩ := rfl
  rw [h]
  have hx : resol 2 2 * ((5000 : Nat) : ℚ) = 45097155000 / 2 ^ 27 := by
    norm_num [resol, lvc_tableResol]
  rw [hx]
  have hfl : fl32 (45097155000 / 2 ^ 27 : ℚ) = (11010048 : ℚ) * 2 ^ ((8 : ℤ) - 23) := by
    apply fl32_eq (45097155000 / 2 ^ 27 : ℚ) 8 11010048 (by norm_num) (by norm_num)
      (by norm_num)
    have hy : ((45097155000 / 2 ^ 27 : ℚ)) * 2 ^ ((23 : ℤ) - 8) = 45097155000 / 2 ^ 12 := by
      norm_num
    rw [hy]
    unfold rne
    rw [show ⌊(45097155000 / 2 ^ 12 : ℚ)⌋ = 11010047 from by norm_num]
    norm_num
  rw [hfl]
  have hv : roundHalfUp ((11010048 : ℚ) * 2 ^ ((8 : ℤ) - 23)) = 336 := by
    unfold roundHalfUp
    rw [show ((11010048 : ℚ) * 2 ^ ((8 : ℤ) - 23) + 1 / 2) = 673 / 2 from by norm_num]
    norm_num
  rw [hv]
  rfl
